import Mathlib

/-!
Shallow embedding of `ansible_runner/cleanup.py` (directory and container
image cleanup tool).  Filesystem and process state is passed explicitly:

* a working directory matched by the glob pattern is a `DirEntry`
  (its path, the readable first line of its `pid` file if any, and the
  entry names of its `artifacts` subdirectory);
* delivery of the probe signal `os.kill(pid, signal.SIG_DFL)` is a
  predicate `killOk : Int → Bool` (`true` = no `OSError` raised);
* an external command invocation is a `CmdResult` (captured stdout and
  return code) supplied by a `Runtime` environment;
* Python exceptions that propagate are modelled with `Except Unit`.

The constant `registry_auth_prefix` is imported by the source from
`ansible_runner.defaults`; it is abstracted here as the parameter `pfx`
of the functions that use it.
-/

set_option autoImplicit false

namespace ARCleanup

/-- Python substring test `p in l` on character lists: `p` occurs
contiguously in `l` (the empty pattern always occurs). -/
def strContainsL (p : List Char) : List Char → Bool
  | [] => p.isEmpty
  | c :: t => p.isPrefixOf (c :: t) || strContainsL p t

/-- Python substring test `pat in s` for strings. -/
def strContains (s pat : String) : Bool :=
  strContainsL pat.toList s.toList

/-- ASCII whitespace stripped by Python `str.strip()`. -/
def isPyWhitespace (c : Char) : Bool :=
  c = ' ' || c = '\t' || c = '\n' || c = '\r' || c = '\x0b' || c = '\x0c'

/-- Python `s.strip()`: drop leading and trailing whitespace. -/
def pyStrip (s : String) : String :=
  ⟨((s.toList.dropWhile isPyWhitespace).reverse.dropWhile isPyWhitespace).reverse⟩

/-- Python `s.split(sep)` for a one-character separator: split at every
occurrence, keeping empty pieces. -/
def pySplit (sep : Char) : List Char → List (List Char)
  | [] => [[]]
  | c :: t =>
    let r := pySplit sep t
    if c = sep then [] :: r else (c :: r.headD []) :: r.tail

/-- Python `s.split(sep)` on strings. -/
def pySplitStr (sep : Char) (s : String) : List String :=
  (pySplit sep s.toList).map (fun cs => ⟨cs⟩)

/-- Python digit character. -/
def isDigitChar (c : Char) : Bool :=
  '0' ≤ c && c ≤ '9'

/-- Value of a nonempty digit string. -/
def digitsToNat (cs : List Char) : Nat :=
  cs.foldl (fun acc c => acc * 10 + (c.toNat - '0'.toNat)) 0

/-- Python `int(s)` applied to a string: strip surrounding whitespace, an
optional sign, then at least one decimal digit; `none` models the
`ValueError` raised on any other input.  (Underscore digit grouping is not
modelled; no input used here contains it.) -/
def parsePyInt (s : String) : Option Int :=
  let t := (pyStrip s).toList
  match t with
  | '+' :: r => if r ≠ [] ∧ r.all isDigitChar then some (digitsToNat r) else none
  | '-' :: r => if r ≠ [] ∧ r.all isDigitChar then some (-(digitsToNat r : Int)) else none
  | r => if r ≠ [] ∧ r.all isDigitChar then some (digitsToNat r) else none

/-- One directory matched by the glob pattern.  `pidLine` is the first
line of its `pid` file, or `none` when opening or reading raises
`IOError`; `idents` is the listing of its `artifacts` subdirectory, the
empty list when that directory is missing (`_get_idents_from_pdd`). -/
structure DirEntry where
  path : String
  pidLine : Option String
  idents : List String
  deriving DecidableEq

/-- Possible returns of `is_alive`: Python `False`, `0` and `1`. -/
inductive AliveRet where
  | retFalse
  | ret0
  | ret1
  deriving DecidableEq

/-- Python truthiness of an `is_alive` return value: `False` and `0` are
falsy, `1` is truthy. -/
def truthy : AliveRet → Bool
  | .retFalse => false
  | .ret0 => false
  | .ret1 => true

/-- `is_alive(dir)`.  A missing/unreadable `pid` file (`IOError`) returns
`False`; a malformed first line makes `int` raise `ValueError`, which is
not caught (`.error ()`); otherwise `os.kill(pid, SIG_DFL)` is probed:
success returns `0`, `OSError` returns `1`. -/
def is_alive (killOk : Int → Bool) (d : DirEntry) : Except Unit AliveRet :=
  match d.pidLine with
  | none => .ok .retFalse
  | some line =>
    match parsePyInt line with
    | none => .error ()
    | some pid => if killOk pid then .ok .ret0 else .ok .ret1

/-- State threaded through the first loop of `cleanup_dirs`: the counter
`ct`, the two identifier accumulators, and (as an effect log) the paths
passed to `shutil.rmtree`. -/
structure Pass1State where
  ct : Nat
  running_idents : List String
  deleted_idents : List String
  removed : List String
  deriving DecidableEq

/-- Body of the first loop of `cleanup_dirs` for one matched directory:
skip it when any excluded identifier is a substring of its path, else
branch on the truthiness of `is_alive` (whose `ValueError` propagates). -/
def pass1Step (killOk : Int → Bool) (excl : List String) (s : Pass1State) (d : DirEntry) :
    Except Unit Pass1State :=
  if excl.any (fun ident => strContains d.path ident) then
    .ok s
  else
    match is_alive killOk d with
    | .error e => .error e
    | .ok r =>
      if truthy r then
        .ok { s with running_idents := s.running_idents ++ d.idents }
      else
        .ok { s with deleted_idents := s.deleted_idents ++ d.idents,
                     removed := s.removed ++ [d.path],
                     ct := s.ct + 1 }

/-- The first loop of `cleanup_dirs` over the glob matches in discovery
order. -/
def pass1 (killOk : Int → Bool) (excl : List String) :
    Pass1State → List DirEntry → Except Unit Pass1State
  | s, [] => .ok s
  | s, d :: rest =>
    match pass1Step killOk excl s d with
    | .error e => .error e
    | .ok s' => pass1 killOk excl s' rest

/-- Portion of a character list strictly before its last `'_'`, `none`
when it has no `'_'`. -/
def splitLastUnderscore : List Char → Option (List Char)
  | [] => none
  | c :: t =>
    match splitLastUnderscore t with
    | some r => some (c :: r)
    | none => if c = '_' then some [] else none

/-- The named group of `re.match('^/tmp/' + pfx + '(?P<ident>.*)_.*?$', path)`:
requires `path` to start with `/tmp/<pfx>` and the remainder to contain an
underscore; the greedy group captures up to the last underscore.  `none`
models a failed match (whose `.group` call raises `AttributeError`). -/
def extractIdent (pfx : String) (path : String) : Option String :=
  let pre := ("/tmp/" ++ pfx).toList
  if pre.isPrefixOf path.toList then
    (splitLastUnderscore (path.toList.drop pre.length)).map (fun cs => ⟨cs⟩)
  else
    none

/-- Body of the second loop of `cleanup_dirs` applied to one registry-auth
glob match, returning the updated effect log of removed auxiliary
directories. -/
def pass2Step (pfx : String) (excl running deleted : List String) (acc : List String)
    (a : String) : Except Unit (List String) :=
  match extractIdent pfx a with
  | none => .error ()
  | some ident =>
    if excl.contains ident || running.contains ident then
      .ok acc
    else if deleted.contains ident then
      .ok (acc ++ [a])
    else
      .ok acc

/-- The second loop of `cleanup_dirs` over the registry-auth glob
matches. -/
def pass2 (pfx : String) (excl running deleted : List String) :
    List String → List String → Except Unit (List String)
  | acc, [] => .ok acc
  | acc, a :: rest =>
    match pass2Step pfx excl running deleted acc a with
    | .error e => .error e
    | .ok acc' => pass2 pfx excl running deleted acc' rest

/-- Result of `cleanup_dirs`: the final first-pass state (its `ct` field
is the returned count) and the auxiliary registry-auth directories removed
by the second pass. -/
structure CleanupOutcome where
  fst : Pass1State
  removedAuth : List String
  deriving DecidableEq

/-- `cleanup_dirs(pattern, exclude_idents)`.  `dirs` are the matches of
`glob.iglob(pattern)` in order, `authDirs` the matches of
`glob.iglob('/tmp/' + pfx + '*_*')`. -/
def cleanup_dirs (killOk : Int → Bool) (pfx : String) (excl : List String)
    (dirs : List DirEntry) (authDirs : List String) : Except Unit CleanupOutcome :=
  match pass1 killOk excl ⟨0, [], [], []⟩ dirs with
  | .error e => .error e
  | .ok s =>
    match pass2 pfx excl s.running_idents s.deleted_idents [] authDirs with
    | .error e => .error e
    | .ok aux => .ok ⟨s, aux⟩

/-- Captured result of one external command. -/
structure CmdResult where
  stdout : String
  returncode : Int
  deriving DecidableEq

/-- `run_command(cmd)`: raise `RuntimeError` on a nonzero return code,
else return the stripped stdout. -/
def run_command (res : CmdResult) : Except Unit String :=
  if res.returncode ≠ 0 then .error () else .ok (pyStrip res.stdout)

/-- The container runtime executable, as the outputs it produces for the
three command shapes the tool invokes. -/
structure Runtime where
  images : String → CmdResult
  rmi : String → CmdResult
  prune : CmdResult

/-- Python `s.strip('"')`: drop all leading and trailing double quotes. -/
def stripQuotes (s : String) : String :=
  ⟨((s.toList.dropWhile (fun c => c = '"')).reverse.dropWhile (fun c => c = '"')).reverse⟩

/-- Scan for non-overlapping occurrences of `p`: after a match the next
`p.length - 1` positions are still inside the match and are skipped. -/
def countOccsAux (p : List Char) : List Char → Nat → Nat
  | [], _ => 0
  | c :: t, skip =>
    if 0 < skip then countOccsAux p t (skip - 1)
    else if p.isPrefixOf (c :: t) then countOccsAux p t (p.length - 1) + 1
    else countOccsAux p t 0

/-- Python non-overlapping substring count `l.count(p)` for a nonempty
pattern, scanning left to right. -/
def countOccs (p : List Char) (l : List Char) : Nat :=
  if p = [] then 0 else countOccsAux p l 0

/-- The `'Untagged:'` marker counted in `rmi` output. -/
def untaggedMarker : List Char := "Untagged:".toList

/-- Inner loop of `cleanup_images`: for each line of the image listing,
strip and unquote it, run `rmi` on it, and add the `Untagged:`
occurrences of the output; the refs passed to `rmi` are logged. -/
def rmiRefsLoop (rt : Runtime) : List String → Nat → List String →
    Except Unit (Nat × List String)
  | [], ct, calls => .ok (ct, calls)
  | t :: rest, ct, calls =>
    let ref := stripQuotes (pyStrip t)
    match run_command (rt.rmi ref) with
    | .error e => .error e
    | .ok out => rmiRefsLoop rt rest (ct + countOccs untaggedMarker out.toList) (calls ++ [ref])

/-- Outer loop of `cleanup_images` over the requested tags: list images
for the tag, skip the tag when the stripped output is empty, else split
the output on newlines and remove each discovered tag. -/
def cleanup_images_loop (rt : Runtime) : List String → Nat → List String →
    Except Unit (Nat × List String)
  | [], ct, calls => .ok (ct, calls)
  | tag :: rest, ct, calls =>
    match run_command (rt.images tag) with
    | .error e => .error e
    | .ok stdout =>
      if stdout = "" then
        cleanup_images_loop rt rest ct calls
      else
        match rmiRefsLoop rt (pySplitStr '\n' stdout) ct calls with
        | .error e => .error e
        | .ok p => cleanup_images_loop rt rest p.1 p.2

/-- `cleanup_images(images, runtime)`: returns the accumulated `rm_ct`
and (as an effect log) the refs passed to `rmi`, in order. -/
def cleanup_images (rt : Runtime) (images : List String) : Except Unit (Nat × List String) :=
  cleanup_images_loop rt images 0 []

/-- `prune_images(runtime)`: `False` when the stripped prune output is
empty or the literal no-reclaim message, `True` otherwise. -/
def prune_images (rt : Runtime) : Except Unit Bool :=
  match run_command rt.prune with
  | .error e => .error e
  | .ok stdout =>
    if stdout = "" || stdout = "Total reclaimed space: 0B" then .ok false else .ok true

/-- Python truthiness of `vargs.get(key)` for a string option: absent and
empty are falsy. -/
def optTruthy : Option String → Bool
  | none => false
  | some s => s ≠ ""

/-- `comma_sep_parse(vargs, key)`: split a truthy option on commas, else
the empty list. -/
def comma_sep_parse (o : Option String) : List String :=
  match o with
  | none => []
  | some s => if s ≠ "" then pySplitStr ',' s else []

/-- The recognized options of `run_cleanup` (`vargs`). -/
structure Vargs where
  file_pattern : Option String
  exclude_idents : Option String
  remove_images : Option String
  image_prune : Bool
  deriving DecidableEq

/-- Ambient state `run_cleanup` acts on: the probe predicate, the glob
results for a pattern, the registry-auth glob results, the abstracted
registry-auth directory name constant, and the container runtime. -/
structure World where
  killOk : Int → Bool
  glob : String → List DirEntry
  authDirs : List String
  authPfx : String
  rt : Runtime

/-- Result of `run_cleanup`: the three component results, which of the
three operations actually ran, and the reported changed status. -/
structure RunOutcome where
  dir_ct : Nat
  image_ct : Nat
  pruned : Bool
  ranDirs : Bool
  ranImages : Bool
  ranPrune : Bool
  changed : Bool
  deriving DecidableEq

/-- The `if vargs.get('file_pattern'): dir_ct = cleanup_dirs(...)` step
of `run_cleanup`; when the option is falsy `dir_ct` keeps its initial
value `0`. -/
def dirStep (w : World) (v : Vargs) : Except Unit Nat :=
  match v.file_pattern with
  | some p =>
    if p ≠ "" then
      match cleanup_dirs w.killOk w.authPfx (comma_sep_parse v.exclude_idents) (w.glob p)
          w.authDirs with
      | .error e => .error e
      | .ok o => .ok o.fst.ct
    else .ok 0
  | none => .ok 0

/-- The `if remove_images: image_ct = cleanup_images(...)` step of
`run_cleanup`. -/
def imagesStep (w : World) (v : Vargs) : Except Unit (Nat × List String) :=
  if (comma_sep_parse v.remove_images).isEmpty then .ok (0, [])
  else cleanup_images w.rt (comma_sep_parse v.remove_images)

/-- The `if vargs.get('image_prune'): pruned = prune_images(...)` step of
`run_cleanup`. -/
def pruneStep (w : World) (v : Vargs) : Except Unit Bool :=
  if v.image_prune then prune_images w.rt else .ok false

/-- `run_cleanup(vargs)`: run each component conditionally and report the
aggregate changed status. -/
def run_cleanup (w : World) (v : Vargs) : Except Unit RunOutcome :=
  match dirStep w v with
  | .error e => .error e
  | .ok dir_ct =>
    match imagesStep w v with
    | .error e => .error e
    | .ok img =>
      match pruneStep w v with
      | .error e => .error e
      | .ok pruned =>
        .ok { dir_ct := dir_ct,
              image_ct := img.1,
              pruned := pruned,
              ranDirs := optTruthy v.file_pattern,
              ranImages := !(comma_sep_parse v.remove_images).isEmpty,
              ranPrune := v.image_prune,
              changed := dir_ct ≠ 0 || img.1 ≠ 0 || pruned }

/-- Condition under which the second loop of `cleanup_dirs` removes an
auxiliary registry-auth directory, read off the loop body: the embedded
identifier is neither excluded nor running, and belongs to the deleted
set. -/
def auxRemoveCond (pfx : String) (excl running deleted : List String) (a : String) : Bool :=
  match extractIdent pfx a with
  | none => false
  | some ident => !(excl.contains ident || running.contains ident) && deleted.contains ident

/-- The refs `cleanup_images` passes to `rmi` for one requested tag: none
when the stripped listing output is empty, else one per line of the
listing, stripped and unquoted. -/
def tagRefs (rt : Runtime) (tag : String) : List String :=
  let stdout := pyStrip (rt.images tag).stdout
  if stdout = "" then [] else (pySplitStr '\n' stdout).map (fun t => stripQuotes (pyStrip t))

/-- Occurrences of the `Untagged:` marker in the stripped `rmi` output
for one ref. -/
def untagCount (rt : Runtime) (ref : String) : Nat :=
  countOccs untaggedMarker (pyStrip (rt.rmi ref).stdout).toList

/-! Helper lemmas -/

theorem strContains_empty (s : String) : strContains s "" = true := by
  unfold strContains
  cases s.toList with
  | nil => rfl
  | cons c t => rfl

theorem pass1Step_removed_sub (killOk : Int → Bool) (excl : List String)
    (s s' : Pass1State) (d : DirEntry) (h : pass1Step killOk excl s d = .ok s') :
    s'.removed = s.removed ∨
      (excl.any (fun ident => strContains d.path ident) = false ∧
        s'.removed = s.removed ++ [d.path]) := by
  unfold pass1Step at h
  split at h
  · cases h; exact Or.inl rfl
  · rename_i hex
    split at h
    · cases h
    · split at h
      · cases h; exact Or.inl rfl
      · cases h
        exact Or.inr ⟨by simpa using hex, rfl⟩

theorem pass1_excluded_not_removed (killOk : Int → Bool) (excl : List String)
    (p : String) (hp : excl.any (fun i => strContains p i) = true) :
    ∀ (dirs : List DirEntry) (s s' : Pass1State),
      pass1 killOk excl s dirs = .ok s' → p ∉ s.removed → p ∉ s'.removed := by
  intro dirs
  induction dirs with
  | nil =>
    intro s s' h hs
    cases h
    exact hs
  | cons d rest ih =>
    intro s s' h hs
    simp only [pass1] at h
    cases hstep : pass1Step killOk excl s d with
    | error e => rw [hstep] at h; cases h
    | ok s1 =>
      rw [hstep] at h
      refine ih s1 s' h ?_
      rcases pass1Step_removed_sub killOk excl s s1 d hstep with heq | ⟨hex, heq⟩
      · rw [heq]; exact hs
      · rw [heq]
        intro hmem
        rcases List.mem_append.1 hmem with h1 | h2
        · exact hs h1
        · have hpd : p = d.path := by simpa using h2
          rw [hpd] at hp
          rw [hp] at hex
          cases hex

theorem auxRemoveCond_some (pfx : String) (excl running deleted : List String)
    (a ident : String) (hid : extractIdent pfx a = some ident) :
    auxRemoveCond pfx excl running deleted a =
      (!(excl.contains ident || running.contains ident) && deleted.contains ident) := by
  unfold auxRemoveCond
  rw [hid]

theorem pass2_ok_eq (pfx : String) (excl running deleted : List String) :
    ∀ (l acc aux : List String),
      pass2 pfx excl running deleted acc l = .ok aux →
      aux = acc ++ l.filter (auxRemoveCond pfx excl running deleted) := by
  intro l
  induction l with
  | nil =>
    intro acc aux h
    cases h
    simp
  | cons a rest ih =>
    intro acc aux h
    simp only [pass2] at h
    cases hstep : pass2Step pfx excl running deleted acc a with
    | error e => rw [hstep] at h; cases h
    | ok acc' =>
      rw [hstep] at h
      have hrest := ih acc' aux h
      unfold pass2Step at hstep
      split at hstep
      · cases hstep
      · rename_i ident hid
        have hsome := auxRemoveCond_some pfx excl running deleted a ident hid
        split at hstep
        · rename_i h1
          cases hstep
          rw [hrest, List.filter_cons, hsome, h1]
          simp
        · rename_i h1
          have h1' : (excl.contains ident || running.contains ident) = false := by
            simpa using h1
          split at hstep
          · rename_i h2
            cases hstep
            rw [hrest, List.filter_cons, hsome, h1', h2]
            simp
          · rename_i h2
            have h2' : deleted.contains ident = false := by simpa using h2
            cases hstep
            rw [hrest, List.filter_cons, hsome, h1', h2']
            simp

theorem cleanup_dirs_ok_parts (killOk : Int → Bool) (pfx : String) (excl : List String)
    (dirs : List DirEntry) (authDirs : List String) (r : CleanupOutcome)
    (h : cleanup_dirs killOk pfx excl dirs authDirs = .ok r) :
    pass1 killOk excl ⟨0, [], [], []⟩ dirs = .ok r.fst ∧
      pass2 pfx excl r.fst.running_idents r.fst.deleted_idents [] authDirs =
        .ok r.removedAuth := by
  unfold cleanup_dirs at h
  split at h
  · cases h
  · rename_i s h1
    split at h
    · cases h
    · rename_i aux h2
      simp only [Except.ok.injEq] at h
      rw [← h]
      exact ⟨h1, h2⟩

theorem pass1_all_excluded (killOk : Int → Bool) (excl : List String)
    (hmem : "" ∈ excl) :
    ∀ (dirs : List DirEntry) (s : Pass1State), pass1 killOk excl s dirs = .ok s := by
  intro dirs
  induction dirs with
  | nil => intro s; rfl
  | cons d rest ih =>
    intro s
    have hex : excl.any (fun ident => strContains d.path ident) = true :=
      List.any_eq_true.2 ⟨"", hmem, strContains_empty d.path⟩
    simp only [pass1, pass1Step, hex, if_true]
    exact ih s

theorem pass2_deleted_nil (pfx : String) (excl running : List String) :
    ∀ (l : List String), (∀ a ∈ l, (extractIdent pfx a).isSome) →
      ∀ (acc : List String), pass2 pfx excl running [] acc l = .ok acc := by
  intro l
  induction l with
  | nil => intro _ acc; rfl
  | cons a rest ih =>
    intro hall acc
    obtain ⟨ident, hid⟩ := Option.isSome_iff_exists.1 (hall a (by simp))
    have hrest : ∀ b ∈ rest, (extractIdent pfx b).isSome :=
      fun b hb => hall b (by simp [hb])
    simp only [pass2, pass2Step, hid]
    by_cases h1 : (excl.contains ident || running.contains ident) = true
    · simp only [h1, if_true]
      exact ih hrest acc
    · simp only [h1, if_false, List.contains_nil]
      simpa using ih hrest acc

theorem run_command_ok (res : CmdResult) (h : res.returncode = 0) :
    run_command res = .ok (pyStrip res.stdout) := by
  simp [run_command, h]

theorem rmiRefsLoop_ok (rt : Runtime) (hrmi : ∀ ref, (rt.rmi ref).returncode = 0) :
    ∀ (l : List String) (ct : Nat) (calls : List String),
      rmiRefsLoop rt l ct calls =
        .ok (ct + ((l.map (fun t => stripQuotes (pyStrip t))).map (untagCount rt)).sum,
             calls ++ l.map (fun t => stripQuotes (pyStrip t))) := by
  intro l
  induction l with
  | nil => intro ct calls; simp [rmiRefsLoop]
  | cons t rest ih =>
    intro ct calls
    simp only [rmiRefsLoop, run_command_ok _ (hrmi (stripQuotes (pyStrip t))), ih]
    simp only [List.map_cons, List.sum_cons, List.append_assoc, List.singleton_append,
      Except.ok.injEq, Prod.mk.injEq, untagCount]
    constructor
    · omega
    · trivial

theorem cleanup_images_loop_ok (rt : Runtime) (himg : ∀ tag, (rt.images tag).returncode = 0)
    (hrmi : ∀ ref, (rt.rmi ref).returncode = 0) :
    ∀ (tags : List String) (ct : Nat) (calls : List String),
      cleanup_images_loop rt tags ct calls =
        .ok (ct + ((tags.flatMap (tagRefs rt)).map (untagCount rt)).sum,
             calls ++ tags.flatMap (tagRefs rt)) := by
  intro tags
  induction tags with
  | nil => intro ct calls; simp [cleanup_images_loop]
  | cons tag rest ih =>
    intro ct calls
    simp only [cleanup_images_loop, run_command_ok _ (himg tag)]
    by_cases he : pyStrip (rt.images tag).stdout = ""
    · rw [if_pos he, ih]
      have ht : tagRefs rt tag = [] := by simp [tagRefs, he]
      simp [List.flatMap_cons, ht]
    · rw [if_neg he]
      simp only [rmiRefsLoop_ok rt hrmi]
      rw [ih]
      have ht : tagRefs rt tag =
          (pySplitStr '\n' (pyStrip (rt.images tag).stdout)).map
            (fun t => stripQuotes (pyStrip t)) := by
        simp [tagRefs, he]
      simp only [List.flatMap_cons, ht, List.map_append, List.sum_append, List.append_assoc,
        Except.ok.injEq, Prod.mk.injEq]
      constructor
      · omega
      · trivial

theorem dirStep_not_truthy (w : World) (v : Vargs) (h : optTruthy v.file_pattern = false) :
    dirStep w v = .ok 0 := by
  unfold dirStep
  cases hfp : v.file_pattern with
  | none => rfl
  | some p =>
    rw [hfp] at h
    simp only [optTruthy, decide_eq_false_iff_not, Decidable.not_not] at h
    simp [h]

theorem imagesStep_empty (w : World) (v : Vargs)
    (h : (comma_sep_parse v.remove_images).isEmpty = true) :
    imagesStep w v = .ok (0, []) := by
  unfold imagesStep
  rw [if_pos h]

theorem pruneStep_off (w : World) (v : Vargs) (h : v.image_prune = false) :
    pruneStep w v = .ok false := by
  unfold pruneStep
  rw [h]
  rfl

theorem run_cleanup_ok_inv (w : World) (v : Vargs) (r : RunOutcome)
    (hr : run_cleanup w v = .ok r) :
    ∃ (dir_ct : Nat) (img : Nat × List String) (pruned : Bool),
      dirStep w v = .ok dir_ct ∧ imagesStep w v = .ok img ∧ pruneStep w v = .ok pruned ∧
      r = { dir_ct := dir_ct,
            image_ct := img.1,
            pruned := pruned,
            ranDirs := optTruthy v.file_pattern,
            ranImages := !(comma_sep_parse v.remove_images).isEmpty,
            ranPrune := v.image_prune,
            changed := dir_ct ≠ 0 || img.1 ≠ 0 || pruned } := by
  unfold run_cleanup at hr
  split at hr
  · cases hr
  · rename_i dir_ct h1
    split at hr
    · cases hr
    · rename_i img h2
      split at hr
      · cases hr
      · rename_i pruned h3
        simp only [Except.ok.injEq] at hr
        exact ⟨dir_ct, img, pruned, h1, h2, h3, hr.symm⟩

/-! Claim theorems -/

/-- C1: the claim fails on the code.  For the matched directory
`/tmp/.ansible-runner-aaa` with pid line `42`, identifiers `["j1"]`, no
exclusions, and a probe signal that always succeeds (the recorded process
is alive), `cleanup_dirs` removes the directory, counts it, and records
its identifier in the deleted set, leaving the still-running set empty:
`is_alive` returns the falsy `0` on probe success, so the directory of a
live process is treated as dead. -/
theorem live_dir_removed_on_probe_success :
    cleanup_dirs (fun _ => true) "reg_" []
      [⟨"/tmp/.ansible-runner-aaa", some "42", ["j1"]⟩] [] =
      .ok ⟨⟨1, [], ["j1"], ["/tmp/.ansible-runner-aaa"]⟩, []⟩ := by
  rfl

/-- C2: the claim fails on the code.  For the matched directory
`/tmp/.ansible-runner-bbb` with pid line `42` whose probe signal raises a
no-such-process `OSError` (the process does not exist), `cleanup_dirs`
does not delete the directory, counts nothing, and records its
identifiers as still running: `is_alive` returns the truthy `1` on probe
failure. -/
theorem dead_dir_preserved_on_probe_failure :
    cleanup_dirs (fun _ => false) "reg_" []
      [⟨"/tmp/.ansible-runner-bbb", some "42", ["j2"]⟩] [] =
      .ok ⟨⟨0, ["j2"], [], []⟩, []⟩ := by
  rfl

/-- C3: in the second pass of `cleanup_dirs`, an auxiliary registry-auth
directory whose name embeds identifier `X` is removed iff `X` is among
the identifiers of directories deleted in the same run, `X` is not in the
exclusion list, and `X` is not among the identifiers of still-running
directories. -/
theorem auth_dir_removed_iff (killOk : Int → Bool) (pfx : String) (excl : List String)
    (dirs : List DirEntry) (authDirs : List String) (r : CleanupOutcome) (a X : String)
    (hr : cleanup_dirs killOk pfx excl dirs authDirs = .ok r)
    (ha : a ∈ authDirs) (hx : extractIdent pfx a = some X) :
    a ∈ r.removedAuth ↔
      X ∈ r.fst.deleted_idents ∧ X ∉ excl ∧ X ∉ r.fst.running_idents := by
  obtain ⟨-, h2⟩ := cleanup_dirs_ok_parts killOk pfx excl dirs authDirs r hr
  rw [pass2_ok_eq pfx excl r.fst.running_idents r.fst.deleted_idents authDirs []
    r.removedAuth h2]
  simp only [List.nil_append, List.mem_filter,
    auxRemoveCond_some pfx excl r.fst.running_idents r.fst.deleted_idents a X hx]
  simp [ha]
  tauto

/-- Witness for C3: a dead directory with identifier `j1` is deleted and
the auxiliary directory `/tmp/reg_j1_sfx` embedding `j1` is removed. -/
theorem auth_dir_removed_iff_witness :
    "/tmp/reg_j1_sfx" ∈
        (⟨⟨1, [], ["j1"], ["/tmp/d1"]⟩, ["/tmp/reg_j1_sfx"]⟩ : CleanupOutcome).removedAuth ↔
      "j1" ∈ (⟨⟨1, [], ["j1"], ["/tmp/d1"]⟩,
          ["/tmp/reg_j1_sfx"]⟩ : CleanupOutcome).fst.deleted_idents ∧
        "j1" ∉ ([] : List String) ∧
        "j1" ∉ (⟨⟨1, [], ["j1"], ["/tmp/d1"]⟩,
          ["/tmp/reg_j1_sfx"]⟩ : CleanupOutcome).fst.running_idents :=
  auth_dir_removed_iff (fun _ => false) "reg_" [] [⟨"/tmp/d1", none, ["j1"]⟩]
    ["/tmp/reg_j1_sfx"] ⟨⟨1, [], ["j1"], ["/tmp/d1"]⟩, ["/tmp/reg_j1_sfx"]⟩
    "/tmp/reg_j1_sfx" "j1" (by rfl) (by simp) (by rfl)

/-- C4: a matched directory whose path contains an excluded identifier as
a substring is skipped entirely: its path is never removed by the run and
the loop body leaves the state unchanged (neither deleted nor inspected
for identifiers), regardless of liveness. -/
theorem excluded_dir_skipped (killOk : Int → Bool) (pfx : String) (excl : List String)
    (dirs : List DirEntry) (authDirs : List String) (d : DirEntry) (r : CleanupOutcome)
    (hd : d ∈ dirs)
    (hex : excl.any (fun ident => strContains d.path ident) = true)
    (hr : cleanup_dirs killOk pfx excl dirs authDirs = .ok r) :
    d.path ∉ r.fst.removed ∧ ∀ s : Pass1State, pass1Step killOk excl s d = .ok s := by
  obtain ⟨h1, -⟩ := cleanup_dirs_ok_parts killOk pfx excl dirs authDirs r hr
  constructor
  · exact pass1_excluded_not_removed killOk excl d.path hex dirs
      ⟨0, [], [], []⟩ r.fst h1 (by simp)
  · intro s
    unfold pass1Step
    rw [if_pos hex]

/-- Witness for C4: a dead directory whose path contains the excluded
identifier `xx` is left untouched. -/
theorem excluded_dir_skipped_witness :
    ((⟨"/tmp/xx1", some "5", ["j"]⟩ : DirEntry) ∈
        [(⟨"/tmp/xx1", some "5", ["j"]⟩ : DirEntry)] ∧
      ["xx"].any (fun ident =>
        strContains (⟨"/tmp/xx1", some "5", ["j"]⟩ : DirEntry).path ident) = true) ∧
    ((⟨"/tmp/xx1", some "5", ["j"]⟩ : DirEntry).path ∉
        (⟨⟨0, [], [], []⟩, []⟩ : CleanupOutcome).fst.removed ∧
      ∀ s : Pass1State,
        pass1Step (fun _ => false) ["xx"] s ⟨"/tmp/xx1", some "5", ["j"]⟩ = .ok s) :=
  ⟨⟨by simp, by rfl⟩,
    excluded_dir_skipped (fun _ => false) "reg_" ["xx"]
      [⟨"/tmp/xx1", some "5", ["j"]⟩] [] ⟨"/tmp/xx1", some "5", ["j"]⟩
      ⟨⟨0, [], [], []⟩, []⟩ (by simp) (by rfl) (by rfl)⟩

/-- C5: when every invoked runtime command succeeds, `cleanup_images`
returns the sum over all `rmi` invocations of the occurrences of the
`Untagged:` marker in each invocation's stripped output, the refs passed
to `rmi` are exactly those resolved per requested tag, and a tag whose
image listing strips to empty output contributes no `rmi` invocation (and
hence zero to the total). -/
theorem cleanup_images_total_count (rt : Runtime) (images : List String)
    (himg : ∀ tag, (rt.images tag).returncode = 0)
    (hrmi : ∀ ref, (rt.rmi ref).returncode = 0) :
    cleanup_images rt images =
      .ok (((images.flatMap (tagRefs rt)).map (untagCount rt)).sum,
           images.flatMap (tagRefs rt)) ∧
      ∀ tag ∈ images, pyStrip (rt.images tag).stdout = "" → tagRefs rt tag = [] := by
  constructor
  · unfold cleanup_images
    rw [cleanup_images_loop_ok rt himg hrmi]
    simp
  · intro tag _ he
    simp [tagRefs, he]

/-- Runtime used by the C5 witness: one listed image, whose removal
reports two untag events. -/
def rtC5 : Runtime :=
  ⟨fun _ => ⟨"\"img:lat\"\n", 0⟩, fun _ => ⟨"Untagged: a\nUntagged: b\n", 0⟩, ⟨"", 0⟩⟩

/-- Witness for C5 at a concrete runtime and tag list. -/
theorem cleanup_images_total_count_witness :
    (cleanup_images rtC5 ["myimg"] =
      .ok (((["myimg"].flatMap (tagRefs rtC5)).map (untagCount rtC5)).sum,
           ["myimg"].flatMap (tagRefs rtC5)) ∧
      ∀ tag ∈ ["myimg"], pyStrip (rtC5.images tag).stdout = "" → tagRefs rtC5 tag = []) :=
  cleanup_images_total_count rtC5 ["myimg"] (fun _ => rfl) (fun _ => rfl)

/-- C6: when the prune command succeeds, `prune_images` returns `False`
exactly when the command's stripped output is empty or equals the literal
`Total reclaimed space: 0B` message, and returns `True` otherwise. -/
theorem prune_images_false_iff (rt : Runtime) (h : rt.prune.returncode = 0) :
    (prune_images rt = .ok false ↔
      (pyStrip rt.prune.stdout = "" ∨
        pyStrip rt.prune.stdout = "Total reclaimed space: 0B")) ∧
    (prune_images rt = .ok true ↔
      ¬(pyStrip rt.prune.stdout = "" ∨
        pyStrip rt.prune.stdout = "Total reclaimed space: 0B")) := by
  unfold prune_images
  rw [run_command_ok rt.prune h]
  by_cases hc : (pyStrip rt.prune.stdout = "" ∨
      pyStrip rt.prune.stdout = "Total reclaimed space: 0B")
  · constructor
    · simp [hc]
    · simp [hc]
  · constructor
    · simp [hc]
    · simp [hc]

/-- Runtime used by the C6 witness: prune reports the literal no-reclaim
message. -/
def rtC6 : Runtime :=
  ⟨fun _ => ⟨"", 0⟩, fun _ => ⟨"", 0⟩, ⟨"Total reclaimed space: 0B", 0⟩⟩

/-- Witness for C6 at a concrete runtime. -/
theorem prune_images_false_iff_witness :
    (prune_images rtC6 = .ok false ↔
      (pyStrip rtC6.prune.stdout = "" ∨
        pyStrip rtC6.prune.stdout = "Total reclaimed space: 0B")) ∧
    (prune_images rtC6 = .ok true ↔
      ¬(pyStrip rtC6.prune.stdout = "" ∨
        pyStrip rtC6.prune.stdout = "Total reclaimed space: 0B")) :=
  prune_images_false_iff rtC6 rfl

/-- C7: when the pid file of a matched directory is readable but its
first line does not parse as an integer, `is_alive` raises (the
`ValueError` is not caught), and the loop body of `cleanup_dirs`
propagates the error for any non-excluded directory instead of treating
it as a soft not-alive result. -/
theorem malformed_pid_error_propagates (killOk : Int → Bool) (d : DirEntry) (line : String)
    (hline : d.pidLine = some line) (hbad : parsePyInt line = none) :
    is_alive killOk d = .error () ∧
      ∀ (excl : List String) (s : Pass1State),
        excl.any (fun ident => strContains d.path ident) = false →
        pass1Step killOk excl s d = .error () := by
  have hia : is_alive killOk d = .error () := by
    simp [is_alive, hline, hbad]
  refine ⟨hia, ?_⟩
  intro excl s hex
  simp [pass1Step, hex, hia]

/-- Witness for C7: pid line `oops` makes the liveness check raise. -/
theorem malformed_pid_error_propagates_witness :
    ((⟨"/tmp/d1", some "oops", []⟩ : DirEntry).pidLine = some "oops" ∧
      parsePyInt "oops" = none) ∧
    (is_alive (fun _ => true) ⟨"/tmp/d1", some "oops", []⟩ = .error () ∧
      ∀ (excl : List String) (s : Pass1State),
        excl.any (fun ident =>
          strContains (⟨"/tmp/d1", some "oops", []⟩ : DirEntry).path ident) = false →
        pass1Step (fun _ => true) excl s ⟨"/tmp/d1", some "oops", []⟩ = .error ()) :=
  ⟨⟨rfl, by rfl⟩,
    malformed_pid_error_propagates (fun _ => true) ⟨"/tmp/d1", some "oops", []⟩ "oops"
      rfl (by rfl)⟩

/-- C8: when the pid file of a matched directory is missing or unreadable,
`is_alive` returns the falsy `False` without raising, so for any
non-excluded directory the loop body of `cleanup_dirs` takes the deletion
branch: the directory is removed, counted, and its identifiers are added
to the deleted set. -/
theorem missing_pidfile_not_alive (killOk : Int → Bool) (d : DirEntry)
    (hpid : d.pidLine = none) :
    is_alive killOk d = .ok .retFalse ∧
      ∀ (excl : List String) (s : Pass1State),
        excl.any (fun ident => strContains d.path ident) = false →
        pass1Step killOk excl s d =
          .ok { s with deleted_idents := s.deleted_idents ++ d.idents,
                       removed := s.removed ++ [d.path],
                       ct := s.ct + 1 } := by
  have hia : is_alive killOk d = .ok .retFalse := by
    simp [is_alive, hpid]
  refine ⟨hia, ?_⟩
  intro excl s hex
  simp [pass1Step, hex, hia, truthy]

/-- Witness for C8: a directory with no readable pid file is deleted. -/
theorem missing_pidfile_not_alive_witness :
    ((⟨"/tmp/d2", none, ["j"]⟩ : DirEntry).pidLine = none) ∧
    (is_alive (fun _ => true) ⟨"/tmp/d2", none, ["j"]⟩ = .ok .retFalse ∧
      ∀ (excl : List String) (s : Pass1State),
        excl.any (fun ident =>
          strContains (⟨"/tmp/d2", none, ["j"]⟩ : DirEntry).path ident) = false →
        pass1Step (fun _ => true) excl s ⟨"/tmp/d2", none, ["j"]⟩ =
          .ok { s with deleted_idents := s.deleted_idents ++ ["j"],
                       removed := s.removed ++ ["/tmp/d2"],
                       ct := s.ct + 1 }) :=
  ⟨rfl, missing_pidfile_not_alive (fun _ => true) ⟨"/tmp/d2", none, ["j"]⟩ rfl⟩

/-- C9: `run_cleanup` runs directory cleanup exactly when `file_pattern`
is truthy, image removal exactly when the parsed `remove_images` list is
nonempty, prune exactly when the `image_prune` flag is set; it reports
changed iff the directory count is nonzero, the untag count is nonzero,
or prune reclaimed space; and with none of the three options set it
performs no operation and reports unchanged. -/
theorem run_cleanup_flags_and_changed (w : World) (v : Vargs) (r : RunOutcome)
    (hr : run_cleanup w v = .ok r) :
    r.ranDirs = optTruthy v.file_pattern ∧
    r.ranImages = !(comma_sep_parse v.remove_images).isEmpty ∧
    r.ranPrune = v.image_prune ∧
    (r.changed = true ↔ r.dir_ct ≠ 0 ∨ r.image_ct ≠ 0 ∨ r.pruned = true) ∧
    (optTruthy v.file_pattern = false →
      (comma_sep_parse v.remove_images).isEmpty = true →
      v.image_prune = false →
      r = ⟨0, 0, false, false, false, false, false⟩) := by
  obtain ⟨dir_ct, img, pruned, h1, h2, h3, hre⟩ := run_cleanup_ok_inv w v r hr
  subst hre
  refine ⟨rfl, rfl, rfl, by simp [or_assoc], ?_⟩
  intro ha hb hc
  rw [dirStep_not_truthy w v ha] at h1
  rw [imagesStep_empty w v hb] at h2
  rw [pruneStep_off w v hc] at h3
  injection h1 with h1'
  injection h2 with h2'
  injection h3 with h3'
  simp [← h1', ← h2', ← h3', ha, hb, hc]

/-- Witness for C9: with no option set, `run_cleanup` performs nothing and
reports unchanged. -/
theorem run_cleanup_flags_and_changed_witness :
    (run_cleanup ⟨fun _ => false, fun _ => [], [], "reg_", rtC6⟩ ⟨none, none, none, false⟩ =
        .ok ⟨0, 0, false, false, false, false, false⟩) ∧
    ((⟨0, 0, false, false, false, false, false⟩ : RunOutcome).ranDirs =
        optTruthy (⟨none, none, none, false⟩ : Vargs).file_pattern ∧
      (⟨0, 0, false, false, false, false, false⟩ : RunOutcome).ranImages =
        !(comma_sep_parse (⟨none, none, none, false⟩ : Vargs).remove_images).isEmpty ∧
      (⟨0, 0, false, false, false, false, false⟩ : RunOutcome).ranPrune =
        (⟨none, none, none, false⟩ : Vargs).image_prune ∧
      ((⟨0, 0, false, false, false, false, false⟩ : RunOutcome).changed = true ↔
        (⟨0, 0, false, false, false, false, false⟩ : RunOutcome).dir_ct ≠ 0 ∨
        (⟨0, 0, false, false, false, false, false⟩ : RunOutcome).image_ct ≠ 0 ∨
        (⟨0, 0, false, false, false, false, false⟩ : RunOutcome).pruned = true) ∧
      (optTruthy (⟨none, none, none, false⟩ : Vargs).file_pattern = false →
        (comma_sep_parse (⟨none, none, none, false⟩ : Vargs).remove_images).isEmpty = true →
        (⟨none, none, none, false⟩ : Vargs).image_prune = false →
        (⟨0, 0, false, false, false, false, false⟩ : RunOutcome) =
          ⟨0, 0, false, false, false, false, false⟩)) :=
  ⟨by rfl,
    run_cleanup_flags_and_changed ⟨fun _ => false, fun _ => [], [], "reg_", rtC6⟩
      ⟨none, none, none, false⟩ ⟨0, 0, false, false, false, false, false⟩ (by rfl)⟩

/-- C10: when the comma-separated `exclude_idents` option yields an
empty-string identifier, the empty string is a substring of every matched
path, so `cleanup_dirs` skips every matched directory, deletes nothing
(auxiliary registry-auth directories included), and returns count 0. -/
theorem empty_exclude_ident_skips_all (killOk : Int → Bool) (pfx : String)
    (o : Option String) (dirs : List DirEntry) (authDirs : List String)
    (hmem : "" ∈ comma_sep_parse o)
    (hauth : ∀ a ∈ authDirs, (extractIdent pfx a).isSome) :
    cleanup_dirs killOk pfx (comma_sep_parse o) dirs authDirs =
      .ok ⟨⟨0, [], [], []⟩, []⟩ := by
  simp only [cleanup_dirs, pass1_all_excluded killOk (comma_sep_parse o) hmem dirs]
  simp only [pass2_deleted_nil pfx (comma_sep_parse o) [] authDirs hauth]

/-- Witness for C10: `exclude_idents = "j1,"` parses to `["j1", ""]`, and
every directory (and the matching auxiliary directory) survives. -/
theorem empty_exclude_ident_skips_all_witness :
    ("" ∈ comma_sep_parse (some "j1,")) ∧
    (∀ a ∈ ["/tmp/reg_j9_x"], (extractIdent "reg_" a).isSome) ∧
    cleanup_dirs (fun _ => false) "reg_" (comma_sep_parse (some "j1,"))
      [⟨"/tmp/d1", none, ["j9"]⟩] ["/tmp/reg_j9_x"] = .ok ⟨⟨0, [], [], []⟩, []⟩ :=
  ⟨by decide, by decide, empty_exclude_ident_skips_all (fun _ => false) "reg_" (some "j1,")
      [⟨"/tmp/d1", none, ["j9"]⟩] ["/tmp/reg_j9_x"] (by decide) (by decide)⟩

end ARCleanup
